import Mathlib

/-!
# Verification of the Trigger Queue & Processing Engine

A shallow embedding, in Lean 4, of the core of the AI email agent
(`src/app.py`, `src/context.py`, `src/template.py`, `src/claude.py`):
the trigger store (atomic claim and partial status update), the
context aggregator (instruction extraction and message fetch), the
template renderer, the reasoning-service wrapper `call_claude`, and
the processing pipeline `process_trigger`.

Database effects are modelled as explicit state passing over a list of
trigger rows; `NOW()` is an explicit `Nat` parameter; the wall clock
read by the template renderer is an explicit `String` parameter
standing for the formatted Berlin-time stamp.  External HTTP calls
(Missive posts, the Anthropic API) are modelled by their outcomes,
passed in explicitly.
-/

namespace IbhelmAgent

/-! ## Trigger rows (`ai_triggers` table)

Columns as used by `src/app.py`: id, conversation_id, comment_body,
author_id, status, placeholder_post_id, result_post_id,
result_markdown, error_message, created_at, processed_at.  Nullable
columns are `Option`. -/

structure Trigger where
  id : String
  conversation_id : String
  comment_body : Option String
  author_id : Option String
  status : String
  placeholder_post_id : Option String
  result_post_id : Option String
  result_markdown : Option String
  error_message : Option String
  created_at : Nat
  processed_at : Option Nat
  deriving Repr, DecidableEq

/-- The record `claim_pending_trigger` returns (`app.py` lines 78–84):
`comment_body` is defaulted to `''` and `author_id` kept nullable. -/
structure ClaimedTrigger where
  id : String
  conversation_id : String
  comment_body : String
  author_id : Option String
  deriving Repr, DecidableEq

def mkClaimed (t : Trigger) : ClaimedTrigger :=
  { id := t.id
    conversation_id := t.conversation_id
    comment_body := t.comment_body.getD ""
    author_id := t.author_id }

/-! ## `update_trigger_status` (`app.py` lines 88–109)

`UPDATE ai_triggers SET status = %s,
  placeholder_post_id = COALESCE(%s, placeholder_post_id),
  result_post_id      = COALESCE(%s, result_post_id),
  result_markdown     = COALESCE(%s, result_markdown),
  error_message       = COALESCE(%s, error_message),
  processed_at        = NOW()
 WHERE id = %s` -/

/-- SQL `COALESCE(new, old)`: the supplied value when non-NULL, else the
stored one. -/
def coalesce (new old : Option String) : Option String :=
  match new with
  | some v => some v
  | none => old

/-- The optional arguments of `update_trigger_status` (each defaults to
`None` in the Python signature). -/
structure UpdateArgs where
  status : String
  placeholder_post_id : Option String := none
  result_post_id : Option String := none
  result_markdown : Option String := none
  error_message : Option String := none
  deriving Repr, DecidableEq

/-- Effect of the UPDATE statement on one matching row. -/
def applyUpdate (now : Nat) (args : UpdateArgs) (t : Trigger) : Trigger :=
  { t with
    status := args.status
    placeholder_post_id := coalesce args.placeholder_post_id t.placeholder_post_id
    result_post_id := coalesce args.result_post_id t.result_post_id
    result_markdown := coalesce args.result_markdown t.result_markdown
    error_message := coalesce args.error_message t.error_message
    processed_at := some now }

/-- `update_trigger_status`: apply the UPDATE to every row whose id
matches (the id is a unique key, so at most one row in practice). -/
def update_trigger_status (now : Nat) (trigger_id : String) (args : UpdateArgs)
    (db : List Trigger) : List Trigger :=
  db.map fun t => if t.id = trigger_id then applyUpdate now args t else t

/-! ## `claim_pending_trigger` (`app.py` lines 52–85)

`UPDATE ai_triggers SET status = 'processing', processed_at = NOW()
 WHERE id = (SELECT id FROM ai_triggers WHERE status = 'pending'
             ORDER BY created_at ASC LIMIT 1 FOR UPDATE SKIP LOCKED)
 RETURNING id, conversation_id, comment_body, author_id`

The single statement is atomic; `FOR UPDATE SKIP LOCKED` means a row
locked by a concurrent claimer is skipped, so concurrent executions
serialize into some order of atomic claim steps.  We model one atomic
step and iterate it. -/

def pendingTriggers (db : List Trigger) : List Trigger :=
  db.filter fun t => t.status = "pending"

def pendingIds (db : List Trigger) : List String :=
  (pendingTriggers db).map (·.id)

/-- `SELECT id ... WHERE status = 'pending' ORDER BY created_at ASC
LIMIT 1`: the oldest pending row (first in table order among ties). -/
def selectOldestPending (db : List Trigger) : Option Trigger :=
  (pendingTriggers db).foldl
    (fun acc t =>
      match acc with
      | none => some t
      | some u => if t.created_at < u.created_at then some t else acc)
    none

/-- The UPDATE part of the claim statement. -/
def markProcessing (now : Nat) (trigger_id : String) (db : List Trigger) : List Trigger :=
  db.map fun t =>
    if t.id = trigger_id then { t with status := "processing", processed_at := some now } else t

/-- One atomic execution of the claim statement: returns the claimed
record (or `none` when no pending row) and the updated table. -/
def claimAtomic (now : Nat) (db : List Trigger) : Option ClaimedTrigger × List Trigger :=
  match selectOldestPending db with
  | none => (none, db)
  | some t => (some (mkClaimed t), markProcessing now t.id db)

/-- Storage unavailability: `psycopg.connect` raising is distinct from
the empty-queue `None` return. -/
inductive StorageError where
  | unavailable
  deriving Repr, DecidableEq

/-- `claim_pending_trigger`, with the connection's availability made
explicit: an unreachable store raises (models the psycopg exception),
otherwise the atomic claim runs and `None`/a row is returned. -/
def claim_pending_trigger (available : Bool) (now : Nat) (db : List Trigger) :
    Except StorageError (Option ClaimedTrigger × List Trigger) :=
  if available then Except.ok (claimAtomic now db) else Except.error StorageError.unavailable

/-- `N` successive atomic claim executions (the serialization of `N`
concurrent callers). Returns the list of per-call results and the
final table. -/
def claimIter (now : Nat) : Nat → List Trigger → List (Option ClaimedTrigger) × List Trigger
  | 0, db => ([], db)
  | n + 1, db =>
    let step := claimAtomic now db
    let rest := claimIter now n step.2
    (step.1 :: rest.1, rest.2)

/-- Ids returned by a list of claim results. -/
def claimedIds (rs : List (Option ClaimedTrigger)) : List String :=
  rs.filterMap fun r => r.map (·.id)

def triggerIds (db : List Trigger) : List String :=
  db.map (·.id)

/-- Status of the row with a given id (`find?` is unambiguous when ids
are a key). -/
def statusOf (trigger_id : String) (db : List Trigger) : Option String :=
  (db.find? fun t => t.id = trigger_id).map (·.status)

/-- The row with a given id. -/
def rowOf (trigger_id : String) (db : List Trigger) : Option Trigger :=
  db.find? fun t => t.id = trigger_id

/-- A sequence of `update_trigger_status` calls, as seen by one row:
each element is the `NOW()` value and the arguments of one call. -/
def applyUpdates (t : Trigger) : List (Nat × UpdateArgs) → Trigger
  | [] => t
  | (now, args) :: rest => applyUpdates (applyUpdate now args t) rest

/-- A concrete trigger row used to instantiate theorems. -/
def sampleTrigger : Trigger :=
  { id := "t1", conversation_id := "c1", comment_body := some "please @ai summarize"
    author_id := some "u1", status := "pending", placeholder_post_id := none
    result_post_id := none, result_markdown := none, error_message := none
    created_at := 10, processed_at := none }

/-- A concrete update-call argument record used to instantiate theorems. -/
def sampleArgs : UpdateArgs :=
  { status := "processing", placeholder_post_id := some "ph1" }

/-- A concrete table with two pending triggers, used to instantiate
the concurrency theorem. -/
def sampleDb : List Trigger :=
  [sampleTrigger,
   { id := "t2", conversation_id := "c2", comment_body := some "@ai check status"
     author_id := none, status := "pending", placeholder_post_id := none
     result_post_id := none, result_markdown := none, error_message := none
     created_at := 20, processed_at := none }]

/-! ## Instruction extraction (`context.py` lines 151–158)

`re.search(r'@ai\b\s*(.*)', comment_body, re.IGNORECASE | re.DOTALL)`,
then `match.group(1).strip()`, else `""`.  The regex classes `\w`/`\s`
and `IGNORECASE` are modelled over ASCII (marker and vocabulary are
ASCII). -/

/-- Python regex `\w` (ASCII part). -/
def isWordChar (c : Char) : Bool := c.isAlphanum || c = '_'

/-- Python regex `\s` / `str.strip()` whitespace (ASCII part). -/
def isSpaceChar (c : Char) : Bool :=
  c = ' ' || c = '\t' || c = '\n' || c = '\r' || c = '\x0b' || c = '\x0c'

/-- Python `str.strip()`: drop whitespace from both ends. -/
def stripChars (l : List Char) : List Char :=
  ((l.dropWhile isSpaceChar).reverse.dropWhile isSpaceChar).reverse

/-- One anchor position of the pattern `@ai\b`: `@ai` case-insensitively
at the head of `l` followed by a word boundary; returns the text after
the marker. -/
def afterMarker : List Char → Option (List Char)
  | c :: a :: i :: rest =>
    if c = '@' && (a = 'a' || a = 'A') && (i = 'i' || i = 'I')
        && (match rest with | [] => true | d :: _ => !isWordChar d) then
      some rest
    else none
  | _ => none

/-- The left-to-right scan of `re.search`: first anchor position where
the pattern matches (`\s*(.*)` always succeeds after `@ai\b`). -/
def findAfterMarker : List Char → Option (List Char)
  | [] => none
  | c :: rest =>
    match afterMarker (c :: rest) with
    | some r => some r
    | none => findAfterMarker rest

/-- `_extract_instruction`: the captured group is the remainder after
`@ai\b\s*` (DOTALL, greedy), then `.strip()`; `""` when no match. -/
def _extract_instruction (comment_body : String) : String :=
  match findAfterMarker comment_body.data with
  | some r => String.mk (stripChars (r.dropWhile isSpaceChar))
  | none => ""

/-- The marker `@ai` (case-insensitive, word-bounded) occurs at
position `i` of `l`. -/
def markerAt (l : List Char) (i : Nat) : Bool :=
  (afterMarker (l.drop i)).isSome

/-! ## Message fetch (`context.py` lines 209–264, `_get_emails`)

The read surface: `missive.messages` rows (with the columns the two
queries touch) and `missive.contacts` for the `LEFT JOIN`.
`delivered_at` timestamps are `Option Nat` (SQL NULL allowed). -/

structure Contact where
  id : String
  name : Option String
  email : Option String
  deriving Repr, DecidableEq

structure MessageRow where
  id : String
  conversation_id : String
  subject : Option String
  from_contact_id : Option String
  delivered_at : Option Nat
  body_plain_text : Option String
  body : Option String
  deriving Repr, DecidableEq

/-- `EmailInfo` dataclass (`context.py` lines 12–19). -/
structure EmailInfo where
  id : String
  subject : String
  from_name : String
  from_email : String
  delivered_at : String
  body : String
  deriving Repr, DecidableEq

/-- One entry of the `all_metadata` list of dicts (`context.py`
lines 228–236). -/
structure EmailMeta where
  id : String
  subject : String
  from_name : String
  from_email : String
  delivered_at : String
  deriving Repr, DecidableEq

/-- `LEFT JOIN missive.contacts c ON m.from_contact_id = c.id`. -/
def lookupContact (contacts : List Contact) (cid : Option String) : Option Contact :=
  match cid with
  | none => none
  | some c => contacts.find? fun k => k.id = c

/-- `ORDER BY delivered_at DESC` comparison; Postgres sorts NULLs first
on DESC. -/
def descBefore (a b : Option Nat) : Bool :=
  match a, b with
  | none, _ => true
  | some _, none => false
  | some x, some y => y ≤ x

/-- The DESC order on message rows, as a decidable relation. -/
def msgLe (a b : MessageRow) : Prop :=
  descBefore a.delivered_at b.delivered_at = true

instance : DecidableRel msgLe := fun _ _ =>
  inferInstanceAs (Decidable (_ = true))

instance : IsTotal MessageRow msgLe where
  total a b := by
    unfold msgLe
    rcases a.delivered_at with _ | x
    · exact Or.inl rfl
    · rcases b.delivered_at with _ | y
      · exact Or.inr rfl
      · rcases Nat.le_total y x with h | h
        · exact Or.inl (by simp [descBefore, h])
        · exact Or.inr (by simp [descBefore, h])

instance : IsTrans MessageRow msgLe where
  trans a b c hab hbc := by
    unfold msgLe at hab hbc ⊢
    revert hab hbc
    rcases a.delivered_at with _ | x <;> rcases b.delivered_at with _ | y <;>
      rcases c.delivered_at with _ | z <;> intro hab hbc <;>
      simp_all [descBefore] <;> omega

/-- `ORDER BY m.delivered_at DESC` (any correct sort; insertion sort
here). -/
def sortByDeliveredDesc (l : List MessageRow) : List MessageRow :=
  l.insertionSort msgLe

/-- `str(row[4]) if row[4] else ''`. -/
def deliveredStr (d : Option Nat) : String :=
  match d with
  | some n => toString n
  | none => ""

/-- `COALESCE(m.body_plain_text, m.body, '')`. -/
def rawBody (m : MessageRow) : String :=
  ((m.body_plain_text).orElse fun _ => m.body).getD ""

/-- The SQL `CASE`: `LEFT(raw, 2000) || '...'` when longer than 2000
characters, else `raw` (`LEFT` modelled on the character list). -/
def truncBody (raw : String) : String :=
  if raw.length > 2000 then String.mk (raw.data.take 2000) ++ "..." else raw

/-- One row of the metadata query result (`context.py` lines 228–236):
`or`-defaults applied in Python. -/
def toMeta (contacts : List Contact) (m : MessageRow) : EmailMeta :=
  { id := m.id
    subject := m.subject.getD "(No subject)"
    from_name := ((lookupContact contacts m.from_contact_id).bind (·.name)).getD "Unknown"
    from_email := ((lookupContact contacts m.from_contact_id).bind (·.email)).getD ""
    delivered_at := deliveredStr m.delivered_at }

/-- One row of the detail query result (`context.py` lines 253–262). -/
def toEmailInfo (contacts : List Contact) (m : MessageRow) : EmailInfo :=
  { id := m.id
    subject := m.subject.getD "(No subject)"
    from_name := ((lookupContact contacts m.from_contact_id).bind (·.name)).getD "Unknown"
    from_email := ((lookupContact contacts m.from_contact_id).bind (·.email)).getD ""
    delivered_at := deliveredStr m.delivered_at
    body := truncBody (rawBody m) }

/-- `_get_emails`: total count from `COUNT(*)`, uncapped metadata
listing (newest first), detail rows `LIMIT 3` (newest first,
truncated bodies).  Returns `(emails, all_metadata, total_count)`. -/
def _get_emails (contacts : List Contact) (messages : List MessageRow)
    (conversation_id : String) : List EmailInfo × List EmailMeta × Nat :=
  (((sortByDeliveredDesc (messages.filter fun m =>
      m.conversation_id = conversation_id)).take 3).map (toEmailInfo contacts),
   (sortByDeliveredDesc (messages.filter fun m =>
      m.conversation_id = conversation_id)).map (toMeta contacts),
   (messages.filter fun m => m.conversation_id = conversation_id).length)

/-- A conversation with five messages (newest `delivered_at = 50`). -/
def sampleMsg (k : Nat) : MessageRow :=
  { id := "m" ++ toString k, conversation_id := "c1", subject := some ("s" ++ toString k)
    from_contact_id := none, delivered_at := some (10 * k)
    body_plain_text := some ("hello " ++ toString k), body := none }

def sampleMessages : List MessageRow :=
  [sampleMsg 1, sampleMsg 2, sampleMsg 3, sampleMsg 4, sampleMsg 5]

/-! ## Conversation context (`context.py` lines 12–84) -/

structure CommentInfo where
  author_name : String
  created_at : String
  body : String
  deriving Repr, DecidableEq

structure TaskInfo where
  id : Int
  name : String
  status : String
  assigned_to : String
  updated_at : String
  tasklist : String
  deriving Repr, DecidableEq

structure FileInfo where
  name : String
  path : String
  updated_at : String
  deriving Repr, DecidableEq

structure CraftDocInfo where
  id : String
  title : String
  modified_at : String
  deriving Repr, DecidableEq

/-- `ConversationContext` dataclass (`context.py` lines 53–84). -/
structure ConversationContext where
  trigger_author : String
  trigger_instruction : String
  conversation_id : String
  conversation_subject : String
  conversation_url : String
  project_name : String
  project_id : Option Int
  emails : List EmailInfo := []
  emails_metadata : List EmailMeta := []
  emails_count : Nat := 0
  comments : List CommentInfo := []
  tasks : List TaskInfo := []
  anforderungen : List TaskInfo := []
  hinweise : List TaskInfo := []
  files : List FileInfo := []
  craft_docs : List CraftDocInfo := []
  deriving Repr, DecidableEq

/-! ## Template renderer (`template.py` lines 10–140)

`re.sub(r'\{(\w+)\}', replace_var, template)` over the fixed
`variables` dict; the wall clock read (`datetime.now(...)` formatted
with `strftime`) is the explicit `now : String` parameter. -/

/-- `_format_emails_summary` (lines 61–76). -/
def emailLines (i : Nat) (e : EmailInfo) : List String :=
  ["--- Email " ++ toString i ++ " ---",
   "ID: " ++ e.id,
   "From: " ++ e.from_name ++ " <" ++ e.from_email ++ ">",
   "Subject: " ++ e.subject,
   "Date: " ++ e.delivered_at,
   "Body:\n" ++ e.body,
   ""]

def _format_emails_summary (emails : List EmailInfo) : String :=
  if emails = [] then "(No emails in conversation)"
  else String.intercalate "\n" ((emails.enum.map fun p => emailLines (p.1 + 1) p.2).flatten)

/-- `_format_emails_metadata` (lines 79–88). -/
def _format_emails_metadata (metadata : List EmailMeta) : String :=
  if metadata = [] then "(No emails)"
  else String.intercalate "\n" (metadata.map fun m =>
    "- [" ++ m.id.take 8 ++ "...] " ++ m.delivered_at.take 10 ++ " | "
      ++ m.from_name ++ " | " ++ m.subject)

/-- `_format_comments` (lines 91–100). -/
def _format_comments (comments : List CommentInfo) : String :=
  if comments = [] then "(No comments)"
  else String.intercalate "\n" (comments.map fun c =>
    "[" ++ c.created_at ++ "] " ++ c.author_name ++ ": " ++ c.body)

/-- `_format_tasks` (lines 103–114). -/
def taskLines (t : TaskInfo) : List String :=
  ["- [" ++ toString t.id ++ "] " ++ t.name,
   "  Status: " ++ t.status ++ " | Assigned: " ++ t.assigned_to
     ++ " | Tasklist: " ++ t.tasklist,
   "  Updated: " ++ t.updated_at]

def _format_tasks (tasks : List TaskInfo) (label : String) : String :=
  if tasks = [] then "(No " ++ label.toLower ++ ")"
  else String.intercalate "\n" ((label ++ ":") :: (tasks.map taskLines).flatten)

/-- `_format_files` (lines 117–128). -/
def _format_files (files : List FileInfo) : String :=
  if files = [] then "(No files)"
  else String.intercalate "\n" ((files.map fun f =>
    ["- " ++ f.name, "  Path: " ++ f.path, "  Updated: " ++ f.updated_at]).flatten)

/-- `_format_craft_docs` (lines 131–140). -/
def _format_craft_docs (docs : List CraftDocInfo) : String :=
  if docs = [] then "(No Craft documents)"
  else String.intercalate "\n" (docs.map fun d =>
    "- [" ++ d.id ++ "] " ++ d.title ++ " (modified: " ++ d.modified_at ++ ")")

/-- The `variables` dict of `render_template` (lines 35–52), as a
lookup function (`variables.get`).  `now` is the formatted
`datetime.now(ZoneInfo("Europe/Berlin"))`; Python truthiness of
`ctx.trigger_instruction or ...` and `... if ctx.project_id else ""`
(`None` and `0` falsy) is made explicit. -/
def templateVars (now : String) (ctx : ConversationContext) (name : String) : Option String :=
  if name = "current_datetime" then some now
  else if name = "trigger_author" then some ctx.trigger_author
  else if name = "trigger_instruction" then
    some (if ctx.trigger_instruction = "" then "(no specific instruction)"
          else ctx.trigger_instruction)
  else if name = "conversation_subject" then some ctx.conversation_subject
  else if name = "conversation_url" then some ctx.conversation_url
  else if name = "project_name" then some ctx.project_name
  else if name = "project_id" then
    some (match ctx.project_id with
          | some pid => if pid = 0 then "" else toString pid
          | none => "")
  else if name = "emails_summary" then some (_format_emails_summary ctx.emails)
  else if name = "emails_metadata" then some (_format_emails_metadata ctx.emails_metadata)
  else if name = "emails_count" then some (toString ctx.emails_count)
  else if name = "comments" then some (_format_comments ctx.comments)
  else if name = "tasks" then some (_format_tasks ctx.tasks "Tasks")
  else if name = "anforderungen" then some (_format_tasks ctx.anforderungen "Anforderungen")
  else if name = "hinweise" then some (_format_tasks ctx.hinweise "Hinweise")
  else if name = "files" then some (_format_files ctx.files)
  else if name = "craft_docs" then some (_format_craft_docs ctx.craft_docs)
  else none

/-- The fixed variable vocabulary, for stating the unknown-name case. -/
def templateVarNames : List String :=
  ["current_datetime", "trigger_author", "trigger_instruction", "conversation_subject",
   "conversation_url", "project_name", "project_id", "emails_summary", "emails_metadata",
   "emails_count", "comments", "tasks", "anforderungen", "hinweise", "files", "craft_docs"]

/-- `replace_var` (lines 54–56): the substitution callback; unknown
names render as `{unknown:name}`. -/
def replace_var (now : String) (ctx : ConversationContext) (w : List Char) : List Char :=
  match templateVars now ctx (String.mk w) with
  | some v => v.data
  | none => ("\x7bunknown:" ++ String.mk w ++ "\x7d").data

/-- The greedy `\w+` run at the head of `l` (with the remainder);
`none` when the head is not a word character. -/
def takeWord : List Char → Option (List Char × List Char)
  | [] => none
  | c :: rest =>
    if isWordChar c then
      match takeWord rest with
      | some (w, r) => some (c :: w, r)
      | none => some ([c], rest)
    else none

/-- The left-to-right, non-overlapping scan of
`re.sub(r'\{(\w+)\}', repl, ·)`: a match needs `{`, a nonempty word
run, `}`; on a failed match the scan advances one character; a
replacement is emitted verbatim and never rescanned.  The fuel starts
at the input length and dominates it throughout. -/
def substCharsAux (repl : List Char → List Char) : Nat → List Char → List Char
  | _, [] => []
  | 0, l => l
  | fuel + 1, c :: rest =>
    if c = '{' then
      match takeWord rest with
      | some (w, '}' :: r') => repl w ++ substCharsAux repl fuel r'
      | _ => c :: substCharsAux repl fuel rest
    else c :: substCharsAux repl fuel rest

def substChars (repl : List Char → List Char) (l : List Char) : List Char :=
  substCharsAux repl l.length l

/-- `render_template` (lines 10–58), with the clock read explicit. -/
def render_template (template : String) (ctx : ConversationContext) (now : String) : String :=
  String.mk (substChars (replace_var now ctx) template.data)

/-- A concrete context used for counterexamples and witnesses. -/
def cexCtx : ConversationContext :=
  { trigger_author := "Anna", trigger_instruction := "", conversation_id := "c1"
    conversation_subject := "(No subject)", conversation_url := ""
    project_name := "Not assigned", project_id := none }

/-! ## Reasoning-service wrapper (`claude.py` lines 11–99, `call_claude`)

The network call's outcome is explicit: either a response (a list of
content blocks, a block contributing text iff it has a `text`
attribute) or one of the failure classes the `except` clauses catch —
`anthropic.APIError`, `httpx.TimeoutException`, or any other
`Exception`. -/

inductive ClaudeOutcome where
  | success (blocks : List (Option String))
  | apiError (e : String)
  | timeout (e : String)
  | otherError (e : String)
  deriving Repr, DecidableEq

def ClaudeOutcome.isFailure : ClaudeOutcome → Bool
  | .success _ => false
  | .apiError _ => true
  | .timeout _ => true
  | .otherError _ => true

/-- The extraction loop (lines 76–87): concatenate the text of every
block that has a `text` attribute. -/
def extractText (blocks : List (Option String)) : String :=
  blocks.foldl (fun acc b => match b with | some s => acc ++ s | none => acc) ""

/-- `call_claude` (lines 57–99): success returns the concatenated
text; each failure class returns the corresponding `❌` string; the
function never raises. -/
def call_claude (outcome : ClaudeOutcome) : String :=
  match outcome with
  | .success blocks => extractText blocks
  | .apiError e => "❌ AI error: " ++ e
  | .timeout _ => "❌ AI timeout - request took too long"
  | .otherError e => "❌ AI error: " ++ e

/-! ## Processing pipeline (`app.py` lines 112–188, `process_trigger`)

External effects are a world state: the `ai_triggers` table, the list
of successfully created Missive posts `(post_id, conversation_id,
markdown)` and the list of deleted post ids.  The environment fixes
each external call's outcome: the two `missive.post_message` results
(`None` on failure — the client never raises), the `fetch_context`
result (`Except.error` models the psycopg exception), the system
prompt (`get_system_prompt` catches and falls back, so it is total),
the clock read by `render_template`, and the reasoning call's outcome
as a function of the rendered prompt. -/

structure WorldState where
  db : List Trigger
  posts : List (String × String × String)
  deletedPosts : List String
  deriving Repr, DecidableEq

structure PipelineEnv where
  placeholderPostResult : Option String
  contextResult : Except String ConversationContext
  systemPrompt : String
  nowStr : String
  claudeOutcome : String → ClaudeOutcome
  secondPostResult : Option String

def placeholderMarkdown : String := "🤖 *Researching...*"

/-- The error post's markdown (line 180): generic text plus the
diagnostic truncated to 100 characters. -/
def errorMarkdownFor (e : String) : String :=
  "❌ AI temporarily unavailable. Please try again later.\n\n*Error: "
    ++ String.mk (e.data.take 100) ++ "*"

/-- A `missive.post_message` call: recorded only when the client
returned an id. -/
def recordPost (st : WorldState) (conv : String) (result : Option String)
    (markdown : String) : WorldState :=
  match result with
  | some pid => { st with posts := st.posts ++ [(pid, conv, markdown)] }
  | none => st

/-- `if placeholder_id: missive.delete_post(placeholder_id)`. -/
def recordDelete (st : WorldState) (pid : Option String) : WorldState :=
  match pid with
  | some p => { st with deletedPosts := st.deletedPosts ++ [p] }
  | none => st

/-- `if placeholder_id: update_trigger_status(trigger_id, 'processing',
placeholder_post_id=placeholder_id)` (lines 136–137). -/
def recordPlaceholderStatus (now : Nat) (tid : String) (pid : Option String)
    (st : WorldState) : WorldState :=
  match pid with
  | some p =>
    let db' := update_trigger_status now tid
      ({ status := "processing", placeholder_post_id := some p }) st.db
    { st with db := db' }
  | none => st

/-- `process_trigger` (lines 112–188). -/
def process_trigger (env : PipelineEnv) (now : Nat) (tr : ClaimedTrigger)
    (st : WorldState) : WorldState :=
  let placeholder_id := env.placeholderPostResult
  let st1 := recordPost st tr.conversation_id placeholder_id placeholderMarkdown
  let st2 := recordPlaceholderStatus now tr.id placeholder_id st1
  match env.contextResult with
  | Except.ok ctx =>
    let response := call_claude
      (env.claudeOutcome (render_template env.systemPrompt ctx env.nowStr))
    let st3 := recordDelete st2 placeholder_id
    let st4 := recordPost st3 tr.conversation_id env.secondPostResult response
    let db' := update_trigger_status now tr.id
      ({ status := "done", result_post_id := env.secondPostResult,
         result_markdown := some response }) st4.db
    { st4 with db := db' }
  | Except.error e =>
    let st3 := recordDelete st2 placeholder_id
    let st4 := recordPost st3 tr.conversation_id env.secondPostResult (errorMarkdownFor e)
    let db' := update_trigger_status now tr.id
      ({ status := "error", result_post_id := env.secondPostResult,
         error_message := some e }) st4.db
    { st4 with db := db' }

/-- A concrete environment where the reasoning call times out. -/
def cexEnv : PipelineEnv :=
  { placeholderPostResult := some "ph1"
    contextResult := Except.ok cexCtx
    systemPrompt := "p"
    nowStr := "now"
    claudeOutcome := fun _ => ClaudeOutcome.timeout "httpx.ReadTimeout"
    secondPostResult := some "r1" }

def cexWorld : WorldState :=
  { db := [sampleTrigger], posts := [], deletedPosts := [] }

end IbhelmAgent

namespace IbhelmAgent

/-! ## Theorems about the trigger store -/

theorem coalesce_none (old : Option String) : coalesce none old = old := rfl

theorem coalesce_some (v : String) (old : Option String) : coalesce (some v) old = some v := rfl

theorem coalesce_isSome (new old : Option String) (h : old.isSome) :
    (coalesce new old).isSome := by
  cases new <;> simp [coalesce, h]

theorem applyUpdate_id (now : Nat) (args : UpdateArgs) (t : Trigger) :
    (applyUpdate now args t).id = t.id := rfl

theorem rowOf_update (now : Nat) (tid : String) (args : UpdateArgs) (db : List Trigger) :
    rowOf tid (update_trigger_status now tid args db) =
      (rowOf tid db).map (applyUpdate now args) := by
  induction db with
  | nil => rfl
  | cons t rest ih =>
    by_cases h : t.id = tid
    · simp [rowOf, update_trigger_status, List.find?, h, applyUpdate_id]
    · simpa [rowOf, update_trigger_status, List.find?, h] using ih

/-- **C4**: `update_trigger_status` is a partial update.  On the row with
the matching id: every omitted optional field (placeholder reference,
result reference, result body, error text) keeps its stored value, every
supplied optional field is overwritten with the supplied value, the
status is written, and `processed_at` is refreshed on every call;
repeating the same call is harmless (idempotent), so repeated calls for
the same trigger are safe. -/
theorem update_trigger_status_partial_update (now : Nat) (tid : String) (args : UpdateArgs)
    (db : List Trigger) (t : Trigger) (h : rowOf tid db = some t) :
    rowOf tid (update_trigger_status now tid args db) = some (applyUpdate now args t) ∧
    (args.placeholder_post_id = none →
      (applyUpdate now args t).placeholder_post_id = t.placeholder_post_id) ∧
    (args.result_post_id = none →
      (applyUpdate now args t).result_post_id = t.result_post_id) ∧
    (args.result_markdown = none →
      (applyUpdate now args t).result_markdown = t.result_markdown) ∧
    (args.error_message = none →
      (applyUpdate now args t).error_message = t.error_message) ∧
    (∀ v, args.placeholder_post_id = some v →
      (applyUpdate now args t).placeholder_post_id = some v) ∧
    (∀ v, args.result_post_id = some v →
      (applyUpdate now args t).result_post_id = some v) ∧
    (∀ v, args.result_markdown = some v →
      (applyUpdate now args t).result_markdown = some v) ∧
    (∀ v, args.error_message = some v →
      (applyUpdate now args t).error_message = some v) ∧
    (applyUpdate now args t).status = args.status ∧
    (applyUpdate now args t).processed_at = some now ∧
    applyUpdate now args (applyUpdate now args t) = applyUpdate now args t := by
  refine ⟨by rw [rowOf_update, h]; rfl, ?_, ?_, ?_, ?_, ?_, ?_, ?_, ?_, rfl, rfl, ?_⟩
  · intro hn; simp [applyUpdate, hn, coalesce]
  · intro hn; simp [applyUpdate, hn, coalesce]
  · intro hn; simp [applyUpdate, hn, coalesce]
  · intro hn; simp [applyUpdate, hn, coalesce]
  · intro v hv; simp [applyUpdate, hv, coalesce]
  · intro v hv; simp [applyUpdate, hv, coalesce]
  · intro v hv; simp [applyUpdate, hv, coalesce]
  · intro v hv; simp [applyUpdate, hv, coalesce]
  · simp only [applyUpdate]
    cases hp : args.placeholder_post_id <;> cases hr : args.result_post_id <;>
      cases hm : args.result_markdown <;> cases he : args.error_message <;>
        simp [coalesce]

/-- Witness for C4 at a concrete row and concrete arguments. -/
theorem update_trigger_status_partial_update_witness :
    rowOf "t1" (update_trigger_status 5 "t1" sampleArgs [sampleTrigger]) =
      some (applyUpdate 5 sampleArgs sampleTrigger) ∧
    (sampleArgs.result_markdown = none →
      (applyUpdate 5 sampleArgs sampleTrigger).result_markdown = sampleTrigger.result_markdown) ∧
    (∀ v, sampleArgs.placeholder_post_id = some v →
      (applyUpdate 5 sampleArgs sampleTrigger).placeholder_post_id = some v) ∧
    (applyUpdate 5 sampleArgs sampleTrigger).processed_at = some 5 := by
  have h := update_trigger_status_partial_update 5 "t1" sampleArgs [sampleTrigger]
    sampleTrigger (by decide)
  exact ⟨h.1, h.2.2.2.1, h.2.2.2.2.2.1, h.2.2.2.2.2.2.2.2.2.2.1⟩

theorem applyUpdate_placeholder_isSome (now : Nat) (args : UpdateArgs) (t : Trigger)
    (h : t.placeholder_post_id.isSome) : (applyUpdate now args t).placeholder_post_id.isSome :=
  coalesce_isSome _ _ h

/-- **C9**: the four optional trigger fields are never cleared by the
update operation.  A single `applyUpdate` either preserves a field or
overwrites it with the supplied non-null value; and across any sequence
of update calls, a field that holds a non-null value stays non-null. -/
theorem update_never_clears_fields (t : Trigger) (us : List (Nat × UpdateArgs)) :
    (∀ now args,
      ((applyUpdate now args t).placeholder_post_id = t.placeholder_post_id ∨
        ∃ v, args.placeholder_post_id = some v ∧
          (applyUpdate now args t).placeholder_post_id = some v) ∧
      ((applyUpdate now args t).result_post_id = t.result_post_id ∨
        ∃ v, args.result_post_id = some v ∧
          (applyUpdate now args t).result_post_id = some v) ∧
      ((applyUpdate now args t).result_markdown = t.result_markdown ∨
        ∃ v, args.result_markdown = some v ∧
          (applyUpdate now args t).result_markdown = some v) ∧
      ((applyUpdate now args t).error_message = t.error_message ∨
        ∃ v, args.error_message = some v ∧
          (applyUpdate now args t).error_message = some v)) ∧
    (t.placeholder_post_id.isSome → (applyUpdates t us).placeholder_post_id.isSome) ∧
    (t.result_post_id.isSome → (applyUpdates t us).result_post_id.isSome) ∧
    (t.result_markdown.isSome → (applyUpdates t us).result_markdown.isSome) ∧
    (t.error_message.isSome → (applyUpdates t us).error_message.isSome) := by
  refine ⟨fun now args => ?_, ?_, ?_, ?_, ?_⟩
  · refine ⟨?_, ?_, ?_, ?_⟩
    · cases h : args.placeholder_post_id with
      | none => left; simp [applyUpdate, h, coalesce]
      | some v => right; exact ⟨v, rfl, by simp [applyUpdate, h, coalesce]⟩
    · cases h : args.result_post_id with
      | none => left; simp [applyUpdate, h, coalesce]
      | some v => right; exact ⟨v, rfl, by simp [applyUpdate, h, coalesce]⟩
    · cases h : args.result_markdown with
      | none => left; simp [applyUpdate, h, coalesce]
      | some v => right; exact ⟨v, rfl, by simp [applyUpdate, h, coalesce]⟩
    · cases h : args.error_message with
      | none => left; simp [applyUpdate, h, coalesce]
      | some v => right; exact ⟨v, rfl, by simp [applyUpdate, h, coalesce]⟩
  all_goals
    induction us generalizing t with
    | nil => intro h; exact h
    | cons u rest ih =>
      intro h
      exact ih _ (coalesce_isSome _ _ h)

/-- Witness for C9: a field set once stays set across later updates. -/
theorem update_never_clears_fields_witness :
    ((applyUpdate 5 sampleArgs sampleTrigger).placeholder_post_id.isSome →
      (applyUpdates (applyUpdate 5 sampleArgs sampleTrigger)
        [(6, { status := "done", result_markdown := some "ok" }),
         (7, { status := "done" })]).placeholder_post_id.isSome) ∧
    (applyUpdates (applyUpdate 5 sampleArgs sampleTrigger)
        [(6, { status := "done", result_markdown := some "ok" }),
         (7, { status := "done" })]).placeholder_post_id.isSome :=
  ⟨(update_never_clears_fields (applyUpdate 5 sampleArgs sampleTrigger)
      [(6, { status := "done", result_markdown := some "ok" }),
       (7, { status := "done" })]).2.1,
   (update_never_clears_fields (applyUpdate 5 sampleArgs sampleTrigger)
      [(6, { status := "done", result_markdown := some "ok" }),
       (7, { status := "done" })]).2.1 (by decide)⟩

theorem selectOldestPending_of_pending_nil (db : List Trigger)
    (h : pendingTriggers db = []) : selectOldestPending db = none := by
  simp [selectOldestPending, h]

/-- **C5**: claiming from an empty pending set returns the distinguished
"no trigger" signal `Except.ok (none, db)` — not an error — while
storage unavailability surfaces as `Except.error`, a value distinct
from every `ok` result, so the two are never conflated. -/
theorem claim_empty_queue_signal (now : Nat) (db : List Trigger)
    (h : pendingTriggers db = []) :
    claim_pending_trigger true now db = Except.ok (none, db) ∧
    claim_pending_trigger false now db = Except.error StorageError.unavailable ∧
    (∀ r : Option ClaimedTrigger × List Trigger,
      (Except.error StorageError.unavailable :
        Except StorageError (Option ClaimedTrigger × List Trigger)) ≠ Except.ok r) := by
  refine ⟨?_, rfl, fun r hr => by cases hr⟩
  simp [claim_pending_trigger, claimAtomic, selectOldestPending_of_pending_nil db h]

/-- Witness for C5 at the concrete empty table. -/
theorem claim_empty_queue_signal_witness :
    claim_pending_trigger true 3 ([] : List Trigger) = Except.ok (none, []) ∧
    claim_pending_trigger false 3 ([] : List Trigger) =
      Except.error StorageError.unavailable :=
  ⟨(claim_empty_queue_signal 3 [] rfl).1, (claim_empty_queue_signal 3 [] rfl).2.1⟩

/-! ### Lemmas for the atomic-claim concurrency theorem -/

theorem selectStep_mem (l : List Trigger) :
    ∀ (acc : Option Trigger) (t : Trigger),
      l.foldl
        (fun acc t =>
          match acc with
          | none => some t
          | some u => if t.created_at < u.created_at then some t else acc)
        acc = some t →
      t ∈ l ∨ acc = some t := by
  induction l with
  | nil => intro acc t h; exact Or.inr h
  | cons u rest ih =>
    intro acc t h
    rcases ih _ t h with hm | hacc
    · exact Or.inl (List.mem_cons_of_mem _ hm)
    · cases acc with
      | none =>
        simp only [] at hacc
        exact Or.inl (by simp [← Option.some_inj.mp hacc, List.mem_cons])
      | some v =>
        by_cases hlt : u.created_at < v.created_at
        · simp only [hlt, if_pos] at hacc
          exact Or.inl (by simp [← Option.some_inj.mp hacc, List.mem_cons])
        · simp only [hlt, if_neg, not_false_iff] at hacc
          exact Or.inr hacc

theorem selectStep_some (l : List Trigger) :
    ∀ (v : Trigger), ∃ t,
      l.foldl
        (fun acc t =>
          match acc with
          | none => some t
          | some u => if t.created_at < u.created_at then some t else acc)
        (some v) = some t := by
  induction l with
  | nil => intro v; exact ⟨v, rfl⟩
  | cons u rest ih =>
    intro v
    by_cases hlt : u.created_at < v.created_at
    · simpa [hlt] using ih u
    · simpa [hlt] using ih v

theorem selectOldestPending_mem (db : List Trigger) (t : Trigger)
    (h : selectOldestPending db = some t) : t ∈ pendingTriggers db := by
  rcases selectStep_mem (pendingTriggers db) none t h with hm | hacc
  · exact hm
  · cases hacc

theorem selectOldestPending_isSome (db : List Trigger)
    (h : pendingTriggers db ≠ []) : ∃ t, selectOldestPending db = some t := by
  unfold selectOldestPending
  cases hp : pendingTriggers db with
  | nil => exact absurd hp h
  | cons u rest => simpa using selectStep_some rest u

theorem mem_pendingTriggers (db : List Trigger) (t : Trigger) :
    t ∈ pendingTriggers db ↔ t ∈ db ∧ t.status = "pending" := by
  simp [pendingTriggers, List.mem_filter]

theorem triggerIds_markProcessing (now : Nat) (tid : String) (db : List Trigger) :
    triggerIds (markProcessing now tid db) = triggerIds db := by
  induction db with
  | nil => rfl
  | cons u rest ih =>
    by_cases h : u.id = tid <;> simp [triggerIds, markProcessing, h] <;>
      simpa [triggerIds, markProcessing] using ih

theorem pendingIds_markProcessing (now : Nat) (tid : String) (db : List Trigger) :
    pendingIds (markProcessing now tid db) = (pendingIds db).filter (fun i => i ≠ tid) := by
  induction db with
  | nil => rfl
  | cons u rest ih =>
    by_cases h : u.id = tid
    · by_cases hp : u.status = "pending" <;>
        simp [pendingIds, pendingTriggers, markProcessing, h, hp, ih] <;>
        simp [pendingIds, pendingTriggers, markProcessing] at ih <;> exact ih
    · by_cases hp : u.status = "pending" <;>
        simp [pendingIds, pendingTriggers, markProcessing, h, hp] <;>
        simp [pendingIds, pendingTriggers, markProcessing] at ih <;> exact ih

theorem length_filter_ne (l : List String) (a : String) (hnd : l.Nodup) (ha : a ∈ l) :
    (l.filter (fun i => i ≠ a)).length = l.length - 1 := by
  induction l with
  | nil => cases ha
  | cons b rest ih =>
    rcases List.nodup_cons.mp hnd with ⟨hb, hrest⟩
    by_cases hba : b = a
    · subst hba
      have hfe : rest.filter (fun i => i ≠ b) = rest := by
        apply List.filter_eq_self.mpr
        intro x hx
        have hxb : x ≠ b := fun hxb => hb (hxb ▸ hx)
        simp [hxb]
      have hcons : (b :: rest).filter (fun i => i ≠ b) = rest.filter (fun i => i ≠ b) := by
        simp [List.filter_cons]
      rw [hcons, hfe, List.length_cons]
      omega
    · have ha' : a ∈ rest := by
        rcases List.mem_cons.mp ha with h | h
        · exact absurd h.symm hba
        · exact h
      have hlen : 1 ≤ rest.length := List.length_pos.mpr (List.ne_nil_of_mem ha')
      have hcons : (b :: rest).filter (fun i => i ≠ a) =
          b :: rest.filter (fun i => i ≠ a) := by
        simp [List.filter_cons, hba]
      rw [hcons, List.length_cons, ih hrest ha', List.length_cons]
      omega

theorem nodup_pendingIds (db : List Trigger) (hnd : (triggerIds db).Nodup) :
    (pendingIds db).Nodup := by
  have hsub : (pendingIds db).Sublist (triggerIds db) := by
    simpa [pendingIds, pendingTriggers, triggerIds] using
      (List.filter_sublist db).map (fun t : Trigger => t.id)
  exact hnd.sublist hsub

theorem markProcessing_cons (now : Nat) (tid : String) (u : Trigger) (rest : List Trigger) :
    markProcessing now tid (u :: rest) =
      (if u.id = tid then { u with status := "processing", processed_at := some now } else u)
        :: markProcessing now tid rest := by
  by_cases h : u.id = tid <;> simp [markProcessing, h]

theorem statusOf_cons (i : String) (v : Trigger) (l : List Trigger) :
    statusOf i (v :: l) = if v.id = i then some v.status else statusOf i l := by
  by_cases h : v.id = i <;> simp [statusOf, List.find?, h]

theorem statusOf_markProcessing_self (now : Nat) (tid : String) (db : List Trigger)
    (h : tid ∈ triggerIds db) :
    statusOf tid (markProcessing now tid db) = some "processing" := by
  induction db with
  | nil => cases h
  | cons u rest ih =>
    rw [markProcessing_cons]
    by_cases hu : u.id = tid
    · rw [if_pos hu, statusOf_cons]
      simp [hu]
    · have h' : tid ∈ triggerIds rest := by
        rcases List.mem_cons.mp h with hh | hh
        · exact absurd hh.symm hu
        · exact hh
      rw [if_neg hu, statusOf_cons, if_neg hu]
      exact ih h'

theorem statusOf_markProcessing_ne (now : Nat) (tid i : String) (db : List Trigger)
    (h : i ≠ tid) :
    statusOf i (markProcessing now tid db) = statusOf i db := by
  induction db with
  | nil => rfl
  | cons u rest ih =>
    rw [markProcessing_cons, statusOf_cons, statusOf_cons]
    by_cases hu : u.id = tid
    · have hui : ¬(u.id = i) := fun hc => h (hc.symm.trans hu)
      have hti : ¬(tid = i) := fun hc => h hc.symm
      simp [hu, hui, hti, ih]
    · by_cases hui : u.id = i
      · simp [hu, hui, h, fun hc : i = tid => h hc]
      · simp [hu, hui, ih]

/-- **C2**: the claim operation is a sound concurrency-control point.
The single claim statement is atomic (`SELECT ... FOR UPDATE SKIP
LOCKED` inside one `UPDATE`), so `N` concurrent invocations serialize
into `N` atomic claim steps; when the table's ids are a key and `N` is
at most the number of pending triggers, the `N` calls all return a
trigger, the returned triggers are pairwise distinct, each was pending
beforehand (none lost, none claimed twice), and each claimed trigger
ends in status `processing` held by exactly the one claimer. -/
theorem claim_concurrent_no_duplicates (now : Nat) (N : Nat) (db : List Trigger)
    (hnd : (triggerIds db).Nodup) (hN : N ≤ (pendingIds db).length) :
    (claimIter now N db).1.length = N ∧
    (∀ r ∈ (claimIter now N db).1, r.isSome) ∧
    (claimedIds (claimIter now N db).1).length = N ∧
    (claimedIds (claimIter now N db).1).Nodup ∧
    (∀ i ∈ claimedIds (claimIter now N db).1, i ∈ pendingIds db) ∧
    (∀ i ∈ claimedIds (claimIter now N db).1,
      statusOf i (claimIter now N db).2 = some "processing") ∧
    (∀ i, i ∉ pendingIds db → statusOf i (claimIter now N db).2 = statusOf i db) := by
  induction N generalizing db with
  | zero =>
    refine ⟨rfl, ?_, rfl, List.nodup_nil, ?_, ?_, ?_⟩ <;> simp [claimIter, claimedIds]
  | succ n ih =>
    have hne : pendingTriggers db ≠ [] := by
      intro hnil
      rw [pendingIds, hnil] at hN
      simp at hN
    obtain ⟨t, hsel⟩ := selectOldestPending_isSome db hne
    have htmem := selectOldestPending_mem db t hsel
    have htdb : t ∈ db := ((mem_pendingTriggers db t).mp htmem).1
    have htid : t.id ∈ pendingIds db := List.mem_map_of_mem (·.id) htmem
    have htids : t.id ∈ triggerIds db := List.mem_map_of_mem (·.id) htdb
    set db1 := markProcessing now t.id db with hdb1
    have hstep : claimAtomic now db = (some (mkClaimed t), db1) := by
      simp [claimAtomic, hsel, hdb1]
    have hids1 : triggerIds db1 = triggerIds db := triggerIds_markProcessing now t.id db
    have hnd1 : (triggerIds db1).Nodup := hids1 ▸ hnd
    have hpend1 : pendingIds db1 = (pendingIds db).filter (fun i => i ≠ t.id) :=
      pendingIds_markProcessing now t.id db
    have hlen1 : (pendingIds db1).length = (pendingIds db).length - 1 := by
      rw [hpend1]
      exact length_filter_ne _ _ (nodup_pendingIds db hnd) htid
    have hN1 : n ≤ (pendingIds db1).length := by omega
    have hsub1 : ∀ i ∈ pendingIds db1, i ∈ pendingIds db ∧ i ≠ t.id := by
      intro i hi
      rw [hpend1] at hi
      have := List.mem_filter.mp hi
      exact ⟨this.1, by simpa using this.2⟩
    obtain ⟨ihlen, ihsome, ihclen, ihnodup, ihmem, ihstat, ihframe⟩ := ih db1 hnd1 hN1
    have hunfold : claimIter now (n + 1) db =
        (some (mkClaimed t) :: (claimIter now n db1).1, (claimIter now n db1).2) := by
      simp [claimIter, hstep]
    have hcid : claimedIds (claimIter now (n + 1) db).1 =
        t.id :: claimedIds (claimIter now n db1).1 := by
      rw [hunfold]; rfl
    have htid_notin : t.id ∉ pendingIds db1 := by
      intro hc
      exact absurd rfl (hsub1 t.id hc).2
    refine ⟨?_, ?_, ?_, ?_, ?_, ?_, ?_⟩
    · rw [hunfold]; simpa using ihlen
    · rw [hunfold]
      intro r hr
      rcases List.mem_cons.mp hr with h | h
      · subst h; rfl
      · exact ihsome r h
    · rw [hcid]; simpa using ihclen
    · rw [hcid]
      refine List.nodup_cons.mpr ⟨?_, ihnodup⟩
      intro hc
      exact htid_notin (ihmem t.id hc)
    · rw [hcid]
      intro i hi
      rcases List.mem_cons.mp hi with h | h
      · exact h ▸ htid
      · exact (hsub1 i (ihmem i h)).1
    · rw [hcid, hunfold]
      intro i hi
      rcases List.mem_cons.mp hi with h | h
      · subst h
        rw [ihframe t.id htid_notin, hdb1]
        exact statusOf_markProcessing_self now t.id db htids
      · exact ihstat i h
    · rw [hunfold]
      intro i hi
      have hi1 : i ∉ pendingIds db1 := by
        intro hc
        exact hi (hsub1 i hc).1
      have hne' : i ≠ t.id := fun hc => hi (hc ▸ htid)
      rw [ihframe i hi1, hdb1, statusOf_markProcessing_ne now t.id i db hne']

/-- Witness for C2: two concurrent claims on a table with two pending
triggers return two distinct triggers. -/
theorem claim_concurrent_no_duplicates_witness :
    (claimIter 9 2 sampleDb).1.length = 2 ∧
    (claimedIds (claimIter 9 2 sampleDb).1).length = 2 ∧
    (claimedIds (claimIter 9 2 sampleDb).1).Nodup := by
  have h := claim_concurrent_no_duplicates 9 2 sampleDb (by decide) (by decide)
  exact ⟨h.1, h.2.2.1, h.2.2.2.1⟩

/-! ### Lemmas for instruction extraction -/

theorem afterMarker_none_or_drop :
    ∀ l : List Char, afterMarker l = none ∨ afterMarker l = some (l.drop 3)
  | [] => Or.inl rfl
  | [_] => Or.inl rfl
  | [_, _] => Or.inl rfl
  | c :: d :: e :: rest => by
    unfold afterMarker
    cases hcond : (c = '@' && (d = 'a' || d = 'A') && (e = 'i' || e = 'I')
        && (match rest with | [] => true | x :: _ => !isWordChar x) : Bool) with
    | true => right; simp [hcond]
    | false => left; simp [hcond]

theorem afterMarker_eq_drop (l r : List Char) (h : afterMarker l = some r) :
    r = l.drop 3 := by
  rcases afterMarker_none_or_drop l with h' | h'
  · rw [h'] at h; cases h
  · rw [h'] at h; exact (Option.some_inj.mp h).symm

theorem markerAt_cons_succ (c : Char) (rest : List Char) (j : Nat) :
    markerAt (c :: rest) (j + 1) = markerAt rest j := rfl

theorem findAfterMarker_eq_none (l : List Char) (h : ∀ j, markerAt l j = false) :
    findAfterMarker l = none := by
  induction l with
  | nil => rfl
  | cons c rest ih =>
    have h0 : afterMarker (c :: rest) = none := by
      have := h 0
      simp [markerAt] at this
      exact this
    rw [findAfterMarker, h0]
    exact ih fun j => h (j + 1)

theorem findAfterMarker_eq_first (l : List Char) (i : Nat)
    (hi : markerAt l i = true) (hleast : ∀ j < i, markerAt l j = false) :
    findAfterMarker l = some (l.drop (i + 3)) := by
  induction l generalizing i with
  | nil => simp [markerAt, afterMarker] at hi
  | cons c rest ih =>
    cases i with
    | zero =>
      simp only [markerAt, List.drop_zero] at hi
      obtain ⟨r, hr⟩ := Option.isSome_iff_exists.mp hi
      have hr' : afterMarker (c :: rest) = some ((c :: rest).drop 3) := by
        rw [hr, afterMarker_eq_drop _ _ hr]
      rw [findAfterMarker, hr']
    | succ k =>
      have h0 : afterMarker (c :: rest) = none := by
        have := hleast 0 (Nat.succ_pos k)
        simp [markerAt] at this
        exact this
      rw [findAfterMarker, h0]
      have hk : markerAt rest k = true := hi
      have hkleast : ∀ j < k, markerAt rest j = false := fun j hj =>
        hleast (j + 1) (Nat.succ_lt_succ hj)
      rw [ih k hk hkleast]
      rfl

theorem dropWhile_idem (p : Char → Bool) (l : List Char) :
    (l.dropWhile p).dropWhile p = l.dropWhile p := by
  induction l with
  | nil => rfl
  | cons c rest ih =>
    by_cases h : p c
    · simp [List.dropWhile_cons, h, ih]
    · simp [List.dropWhile_cons, h]

theorem stripChars_dropWhile (r : List Char) :
    stripChars (r.dropWhile isSpaceChar) = stripChars r := by
  simp [stripChars, dropWhile_idem]

/-- **C6**: instruction extraction returns the trimmed text after the
first case-insensitive (word-bounded) occurrence of the `@ai` marker,
and the empty string when the marker is absent; in particular
`"please @ai summarize this"` yields `"summarize this"`,
`"@AI check status"` yields `"check status"`, and a marker-free body
yields `""`. -/
theorem extract_instruction_first_marker :
    (∀ (body : String) (i : Nat), markerAt body.data i = true →
      (∀ j < i, markerAt body.data j = false) →
      _extract_instruction body = String.mk (stripChars (body.data.drop (i + 3)))) ∧
    (∀ body : String, (∀ j, markerAt body.data j = false) →
      _extract_instruction body = "") ∧
    _extract_instruction "please @ai summarize this" = "summarize this" ∧
    _extract_instruction "@AI check status" = "check status" ∧
    _extract_instruction "the build is green" = "" := by
  refine ⟨?_, ?_, by decide, by decide, by decide⟩
  · intro body i hi hleast
    rw [_extract_instruction, findAfterMarker_eq_first body.data i hi hleast]
    show String.mk (stripChars ((body.data.drop (i + 3)).dropWhile isSpaceChar)) = _
    rw [stripChars_dropWhile]
  · intro body h
    rw [_extract_instruction, findAfterMarker_eq_none body.data h]

/-! ### Lemmas for the message fetch -/

theorem truncBody_bound (raw : String) :
    (truncBody raw).length ≤ 2003 ∧
    (2000 < (truncBody raw).length → "...".data <:+ (truncBody raw).data) := by
  unfold truncBody
  by_cases h : raw.length > 2000
  · rw [if_pos h]
    have hdata : (String.mk (raw.data.take 2000) ++ "...").data
        = raw.data.take 2000 ++ "...".data := rfl
    have hlen : (String.mk (raw.data.take 2000) ++ "...").length = 2003 := by
      have h1 : (raw.data.take 2000).length = 2000 := by
        rw [List.length_take]
        have : raw.length = raw.data.length := rfl
        omega
      show (String.mk (raw.data.take 2000) ++ "...").data.length = 2003
      rw [hdata, List.length_append, h1]
      rfl
    refine ⟨le_of_eq hlen, fun _ => ?_⟩
    rw [hdata]
    exact List.suffix_append _ _
  · rw [if_neg h]
    exact ⟨by omega, fun hc => absurd hc (by omega)⟩

theorem length_sortByDeliveredDesc (l : List MessageRow) :
    (sortByDeliveredDesc l).length = l.length :=
  (List.perm_insertionSort msgLe l).length_eq

/-- **C7**: the message fetch returns a total count equal to the number
of the conversation's messages (computed independently of the cap), an
uncapped metadata listing of all of them, and a detail list of the at
most 3 most-recent messages; both listings follow the
newest-first order (`delivered_at` descending), and every detail body
is capped: at most 2003 characters, with the `"..."` marker exactly
when the cap truncated it. -/
theorem get_emails_count_cap_order (contacts : List Contact) (messages : List MessageRow)
    (cid : String) :
    (_get_emails contacts messages cid).2.2 =
      (messages.filter fun m => m.conversation_id = cid).length ∧
    (_get_emails contacts messages cid).2.1.length =
      (messages.filter fun m => m.conversation_id = cid).length ∧
    (_get_emails contacts messages cid).1.length =
      min 3 (messages.filter fun m => m.conversation_id = cid).length ∧
    (_get_emails contacts messages cid).2.1 =
      (sortByDeliveredDesc (messages.filter fun m => m.conversation_id = cid)).map
        (toMeta contacts) ∧
    List.Sorted msgLe (sortByDeliveredDesc (messages.filter fun m =>
      m.conversation_id = cid)) ∧
    (_get_emails contacts messages cid).1 =
      ((sortByDeliveredDesc (messages.filter fun m => m.conversation_id = cid)).take 3).map
        (toEmailInfo contacts) ∧
    (∀ e ∈ (_get_emails contacts messages cid).1,
      e.body.length ≤ 2003 ∧ (2000 < e.body.length → "...".data <:+ e.body.data)) := by
  refine ⟨rfl, ?_, ?_, rfl, ?_, rfl, ?_⟩
  · show ((sortByDeliveredDesc _).map (toMeta contacts)).length = _
    rw [List.length_map, length_sortByDeliveredDesc]
  · show (((sortByDeliveredDesc _).take 3).map (toEmailInfo contacts)).length = _
    rw [List.length_map, List.length_take, length_sortByDeliveredDesc]
  · exact List.sorted_insertionSort msgLe _
  · intro e he
    show e.body.length ≤ 2003 ∧ _
    simp only [_get_emails, List.mem_map] at he
    obtain ⟨m, _, hm⟩ := he
    have : e.body = truncBody (rawBody m) := by rw [← hm]; rfl
    rw [this]
    exact truncBody_bound (rawBody m)

/-- Witness for C7: five messages give count 5, metadata length 5,
detail length 3, and a concrete detail body within the cap. -/
theorem get_emails_count_cap_order_witness :
    (_get_emails [] sampleMessages "c1").2.2 = 5 ∧
    (_get_emails [] sampleMessages "c1").2.1.length = 5 ∧
    (_get_emails [] sampleMessages "c1").1.length = 3 ∧
    (toEmailInfo [] (sampleMsg 5)).body.length ≤ 2003 := by
  have h := get_emails_count_cap_order [] sampleMessages "c1"
  exact ⟨h.1.trans (by decide), (h.2.1).trans (by decide),
    (h.2.2.1).trans (by decide),
    (h.2.2.2.2.2.2 (toEmailInfo [] (sampleMsg 5)) (by decide)).1⟩

/-! ### Lemmas for the template renderer -/

theorem takeWord_append : ∀ (l w r : List Char), takeWord l = some (w, r) →
    l = w ++ r ∧ w ≠ []
  | [], w, r, h => by simp [takeWord] at h
  | c :: rest, w, r, h => by
    unfold takeWord at h
    by_cases hc : isWordChar c
    · rw [if_pos hc] at h
      cases htw : takeWord rest with
      | some p =>
        obtain ⟨w', r'⟩ := p
        rw [htw] at h
        have hp := Option.some_inj.mp h
        have hw : c :: w' = w := congrArg Prod.fst hp
        have hr : r' = r := congrArg Prod.snd hp
        obtain ⟨hsplit, _⟩ := takeWord_append rest w' r' htw
        subst hw hr
        exact ⟨by rw [hsplit]; rfl, by simp⟩
      | none =>
        rw [htw] at h
        have hp := Option.some_inj.mp h
        have hw : [c] = w := congrArg Prod.fst hp
        have hr : rest = r := congrArg Prod.snd hp
        subst hw hr
        exact ⟨rfl, by simp⟩
    · rw [if_neg hc] at h
      cases h

theorem takeWord_all_word : ∀ (w : List Char) (d : Char) (r : List Char), w ≠ [] →
    (∀ c ∈ w, isWordChar c = true) → isWordChar d = false →
    takeWord (w ++ d :: r) = some (w, d :: r)
  | [], _, _, hne, _, _ => absurd rfl hne
  | [c], d, r, _, hw, hd => by
    have hc : isWordChar c = true := hw c (by simp)
    have hdr : takeWord (d :: r) = none := by
      unfold takeWord
      rw [if_neg (by simp [hd])]
    show takeWord (c :: (d :: r)) = some ([c], d :: r)
    unfold takeWord
    rw [if_pos hc, hdr]
  | c :: c' :: w', d, r, _, hw, hd => by
    have hc : isWordChar c = true := hw c (by simp)
    have hrec : takeWord ((c' :: w') ++ d :: r) = some (c' :: w', d :: r) :=
      takeWord_all_word (c' :: w') d r (by simp)
        (fun x hx => hw x (List.mem_cons_of_mem c hx)) hd
    show takeWord (c :: ((c' :: w') ++ d :: r)) = some (c :: c' :: w', d :: r)
    unfold takeWord
    rw [if_pos hc, hrec]

theorem substAux_congr (repl1 repl2 : List Char → List Char) :
    ∀ (fuel : Nat) (l : List Char), l.length ≤ fuel →
      (∀ w, ('{' :: (w ++ ['}'])) <:+: l → repl1 w = repl2 w) →
      substCharsAux repl1 fuel l = substCharsAux repl2 fuel l := by
  intro fuel
  induction fuel with
  | zero =>
    intro l hl _
    have hnil : l = [] := List.eq_nil_of_length_eq_zero (Nat.le_zero.mp hl)
    subst hnil
    rfl
  | succ n ih =>
    intro l hl hagree
    cases l with
    | nil => rfl
    | cons c rest =>
      have hrest : rest.length ≤ n := by
        simp only [List.length_cons] at hl
        omega
      have hlift : ∀ w, ('{' :: (w ++ ['}'])) <:+: rest → repl1 w = repl2 w :=
        fun w hw => hagree w (List.infix_cons hw)
      by_cases hc : c = '{'
      · subst hc
        cases htw : takeWord rest with
        | none =>
          have h1 : ∀ repl, substCharsAux repl (n + 1) ('{' :: rest) =
              '{' :: substCharsAux repl n rest := by
            intro repl
            simp [substCharsAux, htw]
          rw [h1, h1, ih rest hrest hlift]
        | some p =>
          obtain ⟨w, r⟩ := p
          cases r with
          | nil =>
            have h1 : ∀ repl, substCharsAux repl (n + 1) ('{' :: rest) =
                '{' :: substCharsAux repl n rest := by
              intro repl
              simp [substCharsAux, htw]
            rw [h1, h1, ih rest hrest hlift]
          | cons d r' =>
            by_cases hd : d = '}'
            · subst hd
              obtain ⟨hsplit, hwne⟩ := takeWord_append rest w ('}' :: r') htw
              have hrepl : repl1 w = repl2 w := by
                apply hagree
                refine ⟨[], r', ?_⟩
                rw [hsplit]
                simp
              have hr'len : r'.length ≤ n := by
                have hlen : rest.length = (w ++ '}' :: r').length := by rw [hsplit]
                simp [List.length_append] at hlen
                have hw1 : 1 ≤ w.length := List.length_pos.mpr hwne
                omega
              have hlift' : ∀ x, ('{' :: (x ++ ['}'])) <:+: r' → repl1 x = repl2 x := by
                intro x hx
                apply hagree
                obtain ⟨s, t, hst⟩ := hx
                refine ⟨'{' :: w ++ '}' :: s, t, ?_⟩
                rw [hsplit, ← hst]
                simp
              have h1 : ∀ repl, substCharsAux repl (n + 1) ('{' :: rest) =
                  repl w ++ substCharsAux repl n r' := by
                intro repl
                simp [substCharsAux, htw]
              rw [h1, h1, hrepl, ih r' hr'len hlift']
            · have h1 : ∀ repl, substCharsAux repl (n + 1) ('{' :: rest) =
                  '{' :: substCharsAux repl n rest := by
                intro repl
                simp [substCharsAux, htw, hd]
              rw [h1, h1, ih rest hrest hlift]
      · have h1 : ∀ repl, substCharsAux repl (n + 1) (c :: rest) =
            c :: substCharsAux repl n rest := by
          intro repl
          simp [substCharsAux, hc]
        rw [h1, h1, ih rest hrest hlift]

/-- **C3 counterexample**: `render_template` reads the wall clock
(`datetime.now`), modelled as the explicit `now` argument; two
invocations with the same template and the same context but a clock
one minute apart give different bytes when the template contains
`{current_datetime}` — so the claim as stated (byte-identical output
for a fixed template + context pair alone) is false. -/
theorem render_template_clock_counterexample :
    render_template "{current_datetime}" cexCtx "Monday, 05 January 2026, 10:00" ≠
      render_template "{current_datetime}" cexCtx "Monday, 05 January 2026, 10:01" := by
  decide

/-- **C3 (amended)**: rendering is deterministic and side-effect-free
as a function of template, context, and clock reading: the only
clock dependence is the `{current_datetime}` placeholder, so whenever
the template does not contain `{current_datetime}` the output is
byte-identical across invocations regardless of the clock; with the
clock reading also fixed, rendering is a pure function (equal inputs
give equal output by definition). -/
theorem render_template_deterministic_fixed_clock (t : String) (ctx : ConversationContext)
    (now₁ now₂ : String) (h : ¬ (("{current_datetime}").data <:+: t.data)) :
    render_template t ctx now₁ = render_template t ctx now₂ := by
  unfold render_template substChars
  congr 1
  apply substAux_congr _ _ t.data.length t.data (le_refl _)
  intro w hw
  by_cases hwname : String.mk w = "current_datetime"
  · exfalso
    apply h
    have hwdata : w = "current_datetime".data := congrArg String.data hwname
    rw [show ("{current_datetime}").data = '{' :: ("current_datetime".data ++ ['}']) by decide]
    rw [← hwdata]
    exact hw
  · simp [replace_var, templateVars, hwname]

/-- Witness for the amended C3 at a concrete clock-free template. -/
theorem render_template_deterministic_fixed_clock_witness :
    render_template "Hello {trigger_author}" cexCtx "Monday, 05 January 2026, 10:00" =
      render_template "Hello {trigger_author}" cexCtx "Monday, 05 January 2026, 10:01" :=
  render_template_deterministic_fixed_clock "Hello {trigger_author}" cexCtx _ _ (by decide)

theorem templateVars_eq_none (now : String) (ctx : ConversationContext) (name : String)
    (h : name ∉ templateVarNames) : templateVars now ctx name = none := by
  simp only [templateVarNames, List.mem_cons, List.not_mem_nil, or_false, not_or] at h
  obtain ⟨h1, h2, h3, h4, h5, h6, h7, h8, h9, h10, h11, h12, h13, h14, h15, h16⟩ := h
  simp [templateVars, h1, h2, h3, h4, h5, h6, h7, h8, h9, h10, h11, h12, h13, h14, h15, h16]

/-- **C8**: a placeholder whose name is outside the fixed variable
vocabulary renders as the visibly marked token `{unknown:name}` —
neither dropped, nor left unmarkd, nor an error. -/
theorem render_unknown_placeholder (ctx : ConversationContext) (now : String) (name : String)
    (hne : name.data ≠ [])
    (hword : ∀ c ∈ name.data, isWordChar c = true)
    (hnotvocab : name ∉ templateVarNames) :
    render_template ("\x7b" ++ name ++ "\x7d") ctx now = "\x7bunknown:" ++ name ++ "\x7d" := by
  have hvars : templateVars now ctx (String.mk name.data) = none := by
    rw [show String.mk name.data = name from rfl]
    exact templateVars_eq_none now ctx name hnotvocab
  have hdata : ("\x7b" ++ name ++ "\x7d").data = '{' :: (name.data ++ ['}']) := by
    show ("\x7b".data ++ name.data) ++ "\x7d".data = '{' :: (name.data ++ ['}'])
    simp
  rw [render_template, substChars, hdata]
  have hlenlist : ('{' :: (name.data ++ ['}'])).length = name.data.length + 1 + 1 := by
    simp
  rw [hlenlist]
  have htw : takeWord (name.data ++ ['}']) = some (name.data, ['}']) :=
    takeWord_all_word name.data '}' [] hne hword (by decide)
  have hstep : substCharsAux (replace_var now ctx) (name.data.length + 1 + 1)
      ('{' :: (name.data ++ ['}'])) =
      replace_var now ctx name.data
        ++ substCharsAux (replace_var now ctx) (name.data.length + 1) [] := by
    simp [substCharsAux, htw]
  rw [hstep]
  have hnil : substCharsAux (replace_var now ctx) (name.data.length + 1) [] = [] := rfl
  rw [hnil, List.append_nil]
  rw [show replace_var now ctx name.data = ("\x7bunknown:" ++ name ++ "\x7d").data by
    simp [replace_var, hvars]]

/-- Witness for C8: the unknown name `foobar`. -/
theorem render_unknown_placeholder_witness :
    render_template ("\x7b" ++ "foobar" ++ "\x7d") cexCtx "now" = "\x7bunknown:" ++ "foobar" ++ "\x7d" :=
  render_unknown_placeholder cexCtx "now" "foobar" (by decide) (by decide) (by decide)

/-! ### Lemmas for the reasoning wrapper and the pipeline -/

theorem claude_failure_starts (o : ClaudeOutcome) (h : o.isFailure = true) :
    "❌".data <+: (call_claude o).data := by
  cases o with
  | success blocks => simp [ClaudeOutcome.isFailure] at h
  | apiError e =>
    show "❌".data <+: ("❌ AI error: " ++ e).data
    have hd : ("❌ AI error: " ++ e).data = "❌ AI error: ".data ++ e.data := rfl
    rw [hd]
    exact List.IsPrefix.trans (by decide) (List.prefix_append _ _)
  | timeout e =>
    show "❌".data <+: ("❌ AI timeout - request took too long" : String).data
    decide
  | otherError e =>
    show "❌".data <+: ("❌ AI error: " ++ e).data
    have hd : ("❌ AI error: " ++ e).data = "❌ AI error: ".data ++ e.data := rfl
    rw [hd]
    exact List.IsPrefix.trans (by decide) (List.prefix_append _ _)

/-- **C10**: `call_claude` is total over failures: every failure of the
external call (typed API error, timeout, or any other exception —
caught by the three `except` clauses) is returned as an ordinary
string beginning with `❌`, and the success case is an ordinary string
too, so the caller never sees an exception. -/
theorem call_claude_total_over_failures (o : ClaudeOutcome) (h : o.isFailure = true) :
    "❌".data <+: (call_claude o).data ∧
    (∀ blocks, call_claude (ClaudeOutcome.success blocks) = extractText blocks) := by
  exact ⟨claude_failure_starts o h, fun _ => rfl⟩

/-- Witness for C10 at a concrete timeout. -/
theorem call_claude_total_over_failures_witness :
    (ClaudeOutcome.timeout "read timed out").isFailure = true ∧
    "❌".data <+: (call_claude (ClaudeOutcome.timeout "read timed out")).data :=
  ⟨rfl, (call_claude_total_over_failures (ClaudeOutcome.timeout "read timed out") rfl).1⟩

theorem statusOf_eq_rowOf (i : String) (db : List Trigger) :
    statusOf i db = (rowOf i db).map (·.status) := rfl

/-- **C1 counterexample**: the claim says a reasoning-call timeout
finalizes the trigger as `error` with the error description populated
and the result fields untouched.  In the code `call_claude` catches
the timeout and returns a `❌` string, so `process_trigger` takes the
success path: at this concrete input the trigger ends with status
`done` (not `error`), a `None` error description, and the result body
set to the `❌` string. -/
theorem process_trigger_reasoning_timeout_counterexample :
    statusOf "t1" (process_trigger cexEnv 5 (mkClaimed sampleTrigger) cexWorld).db
      ≠ some "error" ∧
    (rowOf "t1" (process_trigger cexEnv 5 (mkClaimed sampleTrigger) cexWorld).db).bind
      (·.error_message) = none ∧
    (rowOf "t1" (process_trigger cexEnv 5 (mkClaimed sampleTrigger) cexWorld).db).bind
      (·.result_markdown) = some "❌ AI timeout - request took too long" ∧
    statusOf "t1" (process_trigger cexEnv 5 (mkClaimed sampleTrigger) cexWorld).db
      = some "done" := by
  decide

/-- **C1 (amended)**: when the reasoning call fails (timeout or typed
API failure), `call_claude` converts the failure into a `❌` string and
`process_trigger` continues on the success path: it deletes the
placeholder if one was created (and deletes nothing otherwise), posts
the `❌` string to the conversation when the post succeeds, and
finalizes the trigger as `done` with the result body set to the `❌`
string and the result reference passed as the posted message id; the
error description is left untouched. -/
theorem process_trigger_reasoning_failure_finalizes_done
    (env : PipelineEnv) (now : Nat) (tr : ClaimedTrigger) (st : WorldState)
    (ctx : ConversationContext) (t : Trigger)
    (hctx : env.contextResult = Except.ok ctx)
    (hfail : (env.claudeOutcome
      (render_template env.systemPrompt ctx env.nowStr)).isFailure = true)
    (hrow : rowOf tr.id st.db = some t) :
    statusOf tr.id (process_trigger env now tr st).db = some "done" ∧
    (rowOf tr.id (process_trigger env now tr st).db).bind (·.error_message)
      = t.error_message ∧
    (rowOf tr.id (process_trigger env now tr st).db).bind (·.result_markdown)
      = some (call_claude (env.claudeOutcome
          (render_template env.systemPrompt ctx env.nowStr))) ∧
    "❌".data <+: (call_claude (env.claudeOutcome
      (render_template env.systemPrompt ctx env.nowStr))).data ∧
    (∀ p, env.placeholderPostResult = some p →
      (process_trigger env now tr st).deletedPosts = st.deletedPosts ++ [p]) ∧
    (env.placeholderPostResult = none →
      (process_trigger env now tr st).deletedPosts = st.deletedPosts) ∧
    (∀ rid, env.secondPostResult = some rid →
      (rid, tr.conversation_id, call_claude (env.claudeOutcome
        (render_template env.systemPrompt ctx env.nowStr)))
        ∈ (process_trigger env now tr st).posts) := by
  refine ⟨?_, ?_, ?_, claude_failure_starts _ hfail, ?_, ?_, ?_⟩
  · cases hph : env.placeholderPostResult <;> cases hsp : env.secondPostResult <;>
      simp [process_trigger, hctx, hph, hsp, recordPost, recordDelete,
        recordPlaceholderStatus, statusOf_eq_rowOf, rowOf_update, hrow, applyUpdate]
  · cases hph : env.placeholderPostResult <;> cases hsp : env.secondPostResult <;>
      simp [process_trigger, hctx, hph, hsp, recordPost, recordDelete,
        recordPlaceholderStatus, rowOf_update, hrow, applyUpdate, coalesce]
  · cases hph : env.placeholderPostResult <;> cases hsp : env.secondPostResult <;>
      simp [process_trigger, hctx, hph, hsp, recordPost, recordDelete,
        recordPlaceholderStatus, rowOf_update, hrow, applyUpdate, coalesce]
  · intro p hp
    cases hsp : env.secondPostResult <;>
      simp [process_trigger, hctx, hp, hsp, recordPost, recordDelete,
        recordPlaceholderStatus]
  · intro h0
    cases hsp : env.secondPostResult <;>
      simp [process_trigger, hctx, h0, hsp, recordPost, recordDelete,
        recordPlaceholderStatus]
  · intro rid hrid
    cases hph : env.placeholderPostResult <;>
      simp [process_trigger, hctx, hph, hrid, recordPost, recordDelete,
        recordPlaceholderStatus]

/-- Witness for the amended C1 at the concrete timeout environment. -/
theorem process_trigger_reasoning_failure_finalizes_done_witness :
    statusOf "t1" (process_trigger cexEnv 5 (mkClaimed sampleTrigger) cexWorld).db
      = some "done" ∧
    (rowOf "t1" (process_trigger cexEnv 5 (mkClaimed sampleTrigger) cexWorld).db).bind
      (·.error_message) = sampleTrigger.error_message := by
  have h := process_trigger_reasoning_failure_finalizes_done cexEnv 5
    (mkClaimed sampleTrigger) cexWorld cexCtx sampleTrigger rfl rfl (by decide)
  exact ⟨h.1, h.2.1⟩

theorem extract_instruction_first_marker_witness :
    _extract_instruction "please @ai summarize this" =
      String.mk (stripChars (("please @ai summarize this".data).drop (7 + 3))) ∧
    _extract_instruction "the build is green" = "" :=
  ⟨extract_instruction_first_marker.1 "please @ai summarize this" 7 (by decide)
      (by decide),
   extract_instruction_first_marker.2.1 "the build is green" (by
      intro j
      by_cases hj : j < 18
      · interval_cases j <;> decide
      · have : ("the build is green".data).drop j = [] := by
          apply List.drop_eq_nil_of_le
          simp
          omega
        simp [markerAt, this, afterMarker])⟩

end IbhelmAgent
